import Mathlib

/-!
# Verification of the provider-selection and execution gateway

This file gives a shallow embedding, in Lean 4, of the routing, cost
classification, selection, backend-client caching and response/stream
translation logic of the gateway (`Router.ts`, `PriceData.ts`,
`UnifiedExecutor` and the `/v1` routes), together with theorems settling
the specification's claims about it.

Modelling conventions:
* JavaScript numbers used as prices are modelled as rationals (`ℚ`);
  token counts are naturals.
* Optional (possibly-`undefined`) fields become `Option`.
* A function that may `throw` or return `undefined` returns an `Option`.
* `Array.prototype.sort` (guaranteed stable since ES2019) is modelled by
  the stable `List.insertionSort`, with "`a` may stay before `b`" given by
  the source comparator returning a non-positive value.
* The asynchronous provider-instance cache is modelled by an explicit
  interleaving semantics: each task is a small state machine whose atomic
  steps are separated by the `await` suspension points of the source, and
  a schedule chooses which task steps next.
-/

/-- Pricing of a model (`Pricing` schema; all fields optional JS numbers).
The schema file itself is not under `src/`; the field set follows its uses
in `Router.ts` (`isZeroCost`) and the spec's §3 data model. -/
structure Pricing where
  inputCostPerMillionTokens : Option ℚ
  outputCostPerMillionTokens : Option ℚ
  costPerRequest : Option ℚ
deriving DecidableEq, Repr

/-- A model entry of a provider (`Model` type): `canonical_slug` is the
name sent to the backend, `exposed_slug` the optional client-facing name. -/
structure Model where
  canonical_slug : String
  exposed_slug : Option String
  display_name : Option String
  pricing_name : Option String
  pricing : Option Pricing
deriving DecidableEq, Repr

/-- A configured provider (`Provider` type). -/
structure Provider where
  id : String
  type : String
  apiKey : String
  baseURL : Option String
  models : List Model
deriving DecidableEq, Repr

/-- An ephemeral candidate: a (provider, model) pair produced by resolution. -/
abbrev Candidate := Provider × Model

/-- `PriceData.getPriceWithOverride`: returns the model's own `pricing`
object when present (`if (model.pricing) return model.pricing`), else
`undefined`.  The first argument is used only for logging in the source. -/
def getPriceWithOverride (_providerType : String) (model : Model) : Option Pricing :=
  model.pricing

/-- `Router.isZeroCost`: a candidate is zero-cost when pricing data exists,
at least one pricing field is defined, and every defined field is exactly 0. -/
def isZeroCost (provider : Provider) (model : Model) : Bool :=
  match getPriceWithOverride provider.id model with
  | none => false
  | some pricing =>
    let hasInputCost := pricing.inputCostPerMillionTokens.isSome
    let hasOutputCost := pricing.outputCostPerMillionTokens.isSome
    let hasRequestCost := pricing.costPerRequest.isSome
    if !hasInputCost && !hasOutputCost && !hasRequestCost then
      false
    else
      let inputIsZero := !hasInputCost || decide (pricing.inputCostPerMillionTokens = some 0)
      let outputIsZero := !hasOutputCost || decide (pricing.outputCostPerMillionTokens = some 0)
      let requestIsZero := !hasRequestCost || decide (pricing.costPerRequest = some 0)
      inputIsZero && outputIsZero && requestIsZero

/-- The specification's notion of a zero-cost model (§3 invariant): the
pricing object exists, has at least one defined field, and every defined
field equals exactly 0. -/
def ZeroCostSpec (m : Model) : Prop :=
  ∃ pr, m.pricing = some pr ∧
    (pr.inputCostPerMillionTokens.isSome ∨ pr.outputCostPerMillionTokens.isSome ∨
      pr.costPerRequest.isSome) ∧
    (∀ x, pr.inputCostPerMillionTokens = some x → x = 0) ∧
    (∀ x, pr.outputCostPerMillionTokens = some x → x = 0) ∧
    (∀ x, pr.costPerRequest = some x → x = 0)

/-- C1: `isZeroCost` returns true iff the model's pricing object exists,
at least one of its fields is defined, and every defined field is exactly
0; absent pricing is never zero-cost, and any defined non-zero field rules
zero-cost out. -/
theorem isZeroCost_iff_zeroCostSpec (p : Provider) (m : Model) :
    isZeroCost p m = true ↔ ZeroCostSpec m := by
  unfold isZeroCost getPriceWithOverride ZeroCostSpec
  cases hm : m.pricing with
  | none => simp
  | some pr =>
    rcases pr with ⟨i, o, r⟩
    cases i <;> cases o <;> cases r <;> simp <;> aesop

/-! ## Candidate resolution (`Router.getProvidersForModel`) -/

/-- The identifier under which a model is matched by the resolver:
`model.exposed_slug || model.canonical_slug`.  The JS `||` falls back on
any falsy value, so an *empty* `exposed_slug` also falls back to
`canonical_slug`. -/
def resolvedId (m : Model) : String :=
  match m.exposed_slug with
  | none => m.canonical_slug
  | some s => if s = "" then m.canonical_slug else s

/-- The identifier under which `/v1/models` lists a model:
`model.exposed_slug ?? model.canonical_slug`.  The JS `??` falls back only
on `undefined`/`null`, so an empty `exposed_slug` is listed as itself. -/
def listedId (m : Model) : String :=
  m.exposed_slug.getD m.canonical_slug

/-- `Router.getProvidersForModel`: scans every provider's models in catalog
order, collecting the pairs whose resolved identifier equals the request;
returns `undefined` (here `none`) instead of the empty list when nothing
matched (`matches.length > 0 ? matches : undefined`). -/
def getProvidersForModel (providers : List Provider) (modelname : String) :
    Option (List Candidate) :=
  let found : List Candidate :=
    providers.flatMap fun provider =>
      (provider.models.filter fun m => resolvedId m = modelname).map fun m => (provider, m)
  if found.length > 0 then some found else none

/-- The spec's description of resolution (§4.1): over the catalog flattened
in provider/model order, keep exactly the candidates whose exposed
identifier equals the request. -/
def specResolve (providers : List Provider) (modelname : String) : List Candidate :=
  ((providers.flatMap fun provider => provider.models.map fun m => (provider, m)).filter
    fun c => resolvedId c.2 = modelname)

theorem getProvidersForModel_eq_specResolve (providers : List Provider) (name : String) :
    getProvidersForModel providers name =
      if (specResolve providers name).isEmpty then none else some (specResolve providers name) := by
  have h : (providers.flatMap fun provider =>
      (provider.models.filter fun m => resolvedId m = name).map fun m => (provider, m)) =
      specResolve providers name := by
    unfold specResolve
    induction providers with
    | nil => simp
    | cons p ps ih =>
      simp only [List.flatMap_cons, List.filter_append, ih]
      congr 1
      induction p.models with
      | nil => simp
      | cons m ms ihm =>
        by_cases hm : resolvedId m = name <;> simp [hm, ihm]
  unfold getProvidersForModel
  rw [h]
  rcases hs : specResolve providers name with _ | ⟨c, cs⟩ <;> simp [hs]

/-! ## Paid-provider cost sort (`Router.selectBestPaidProvider`) -/

/-- The input cost used by the comparator: `pricing?.inputCostPerMillionTokens`,
`none` standing for the source's `Infinity` fallback. -/
def inputCostOf (c : Candidate) : Option ℚ :=
  (getPriceWithOverride c.1.id c.2).bind Pricing.inputCostPerMillionTokens

/-- The output cost used by the comparator, `none` standing for `Infinity`. -/
def outputCostOf (c : Candidate) : Option ℚ :=
  (getPriceWithOverride c.1.id c.2).bind Pricing.outputCostPerMillionTokens

/-- Sign of `x - y` over the extended costs, where `none` is `+Infinity`
(`Infinity === Infinity` in JS, and the engine treats a `NaN` comparator
value like 0, so `none` vs `none` is `eq`). -/
def ecmpCost : Option ℚ → Option ℚ → Ordering
  | none, none => .eq
  | none, some _ => .gt
  | some _, none => .lt
  | some x, some y => if x < y then .lt else if x = y then .eq else .gt

/-- `aHasUndefined` of the source comparator: some component fell back to
`Infinity`. -/
def hasMissingCost (c : Candidate) : Bool :=
  (inputCostOf c).isNone || (outputCostOf c).isNone

/-- The source comparator of `selectBestPaidProvider`, as the sign of its
returned number: candidates with an undefined component sort last; both
groups are then compared by input cost, then output cost. -/
def compareCandidates (a b : Candidate) : Ordering :=
  let inputCostA := inputCostOf a
  let inputCostB := inputCostOf b
  let outputCostA := outputCostOf a
  let outputCostB := outputCostOf b
  let aHasUndefined := inputCostA.isNone || outputCostA.isNone
  let bHasUndefined := inputCostB.isNone || outputCostB.isNone
  if aHasUndefined && !bHasUndefined then .gt
  else if !aHasUndefined && bHasUndefined then .lt
  else if inputCostA ≠ inputCostB then ecmpCost inputCostA inputCostB
  else ecmpCost outputCostA outputCostB

/-- "`a` may stay before `b`" for the stable sort: the comparator did not
demand a swap. -/
def candidateLe (a b : Candidate) : Prop :=
  compareCandidates a b ≠ Ordering.gt

instance : DecidableRel candidateLe := fun a b => by
  unfold candidateLe; infer_instance

/-- `Router.selectBestPaidProvider`: `undefined` on an empty list, else the
first element of the stable sort by the cost comparator. -/
def selectBestPaidProvider (candidates : List Candidate) : Option Candidate :=
  if candidates.isEmpty then none
  else (candidates.insertionSort candidateLe).head?

/-- Comparison of the `aHasUndefined` flags (a candidate with a missing
component sorts strictly after one with both defined). -/
def boolCompare : Bool → Bool → Ordering
  | false, true => .lt
  | true, false => .gt
  | _, _ => .eq

/-- The spec's composite sort key (§4.3), as a lexicographic comparison:
missing-component flag first, then input cost with missing as `+∞`, then
output cost with missing as `+∞`. -/
def specKeyCompare (a b : Candidate) : Ordering :=
  (boolCompare (hasMissingCost a) (hasMissingCost b)).then
    ((ecmpCost (inputCostOf a) (inputCostOf b)).then
      (ecmpCost (outputCostOf a) (outputCostOf b)))

/-- Non-strict order induced by the spec's composite key. -/
def specKeyLe (a b : Candidate) : Prop :=
  specKeyCompare a b ≠ Ordering.gt

instance : DecidableRel specKeyLe := fun a b => by
  unfold specKeyLe; infer_instance

theorem ecmpCost_eq_iff (x y : Option ℚ) : ecmpCost x y = .eq ↔ x = y := by
  cases x <;> cases y
  · simp [ecmpCost]
  · simp [ecmpCost]
  · simp [ecmpCost]
  · rename_i a b
    simp only [ecmpCost, Option.some.injEq]
    rcases lt_trichotomy a b with h | h | h
    · simp [h, ne_of_lt h]
    · simp [h]
    · have h1 : ¬ a < b := not_lt_of_gt h
      have h2 : a ≠ b := ne_of_gt h
      simp [h1, h2]

theorem comparator_eq_key (ia ib oa ob : Option ℚ) :
    (if (ia.isNone || oa.isNone) && !(ib.isNone || ob.isNone) then Ordering.gt
     else if !(ia.isNone || oa.isNone) && (ib.isNone || ob.isNone) then Ordering.lt
     else if ia ≠ ib then ecmpCost ia ib else ecmpCost oa ob)
    = (boolCompare (ia.isNone || oa.isNone) (ib.isNone || ob.isNone)).then
        ((ecmpCost ia ib).then (ecmpCost oa ob)) := by
  have hthen : ∀ x : Ordering, Ordering.eq.then x = x := fun x => rfl
  cases hA : (ia.isNone || oa.isNone) <;> cases hB : (ib.isNone || ob.isNone) <;>
    simp only [Bool.not_true, Bool.not_false, Bool.and_true, Bool.and_false,
      Bool.true_and, Bool.false_and, if_true, if_false, boolCompare, hthen,
      Bool.false_eq_true, Bool.true_eq_false] <;>
    by_cases hio : ia = ib
  · rw [if_neg (by simpa using hio), (ecmpCost_eq_iff ia ib).mpr hio, hthen]
  · rw [if_pos (by simpa using hio)]
    have : ecmpCost ia ib ≠ .eq := fun hc => hio ((ecmpCost_eq_iff ia ib).mp hc)
    cases hc : ecmpCost ia ib <;> simp_all [Ordering.then]
  · rfl
  · rfl
  · rfl
  · rfl
  · rw [if_neg (by simpa using hio), (ecmpCost_eq_iff ia ib).mpr hio, hthen]
  · rw [if_pos (by simpa using hio)]
    have : ecmpCost ia ib ≠ .eq := fun hc => hio ((ecmpCost_eq_iff ia ib).mp hc)
    cases hc : ecmpCost ia ib <;> simp_all [Ordering.then]

theorem compareCandidates_eq_specKeyCompare (a b : Candidate) :
    compareCandidates a b = specKeyCompare a b := by
  unfold compareCandidates specKeyCompare hasMissingCost
  exact comparator_eq_key _ _ _ _

theorem orderedInsert_congr {α : Type} {r s : α → α → Prop}
    [DecidableRel r] [DecidableRel s] (h : ∀ x y, r x y ↔ s x y) (a : α) :
    ∀ l : List α, l.orderedInsert r a = l.orderedInsert s a := by
  intro l
  induction l with
  | nil => rfl
  | cons b l ih =>
    by_cases hr : r a b
    · rw [List.orderedInsert, List.orderedInsert, if_pos hr, if_pos ((h a b).mp hr)]
    · rw [List.orderedInsert, List.orderedInsert, if_neg hr,
        if_neg (fun hs => hr ((h a b).mpr hs)), ih]

theorem insertionSort_congr {α : Type} {r s : α → α → Prop}
    [DecidableRel r] [DecidableRel s] (h : ∀ x y, r x y ↔ s x y) :
    ∀ l : List α, l.insertionSort r = l.insertionSort s := by
  intro l
  induction l with
  | nil => rfl
  | cons a l ih =>
    rw [List.insertionSort, List.insertionSort, ih, orderedInsert_congr h]

theorem candidateLe_iff_specKeyLe (a b : Candidate) : candidateLe a b ↔ specKeyLe a b := by
  unfold candidateLe specKeyLe
  rw [compareCandidates_eq_specKeyCompare]

/-! ## Selection policy (`Router`) -/

/-- `Router.partitionCandidatesByCost`: splits the candidates into the
zero-cost ones and the paid ones, preserving order. -/
def partitionCandidatesByCost (candidates : List Candidate) :
    List Candidate × List Candidate :=
  candidates.partition fun c => isZeroCost c.1 c.2

/-- `Router.randomSelect` with the random source injected: the source draws
`Math.floor(Math.random() * items.length)`, modelled by reducing an
arbitrary injected natural `r` modulo the length; selecting from an empty
list throws (`none`). -/
def randomSelect {α : Type} (items : List α) (r : Nat) : Option α :=
  if items.isEmpty then none
  else items[r % items.length]?

/-- `Router.selectBestCandidate`: a random zero-cost candidate when any
exists, else the best paid provider, else `undefined`. -/
def selectBestCandidate (zeroCostCandidates paidCandidates : List Candidate)
    (r : Nat) : Option Candidate :=
  if zeroCostCandidates.length > 0 then randomSelect zeroCostCandidates r
  else if paidCandidates.length > 0 then selectBestPaidProvider paidCandidates
  else none

/-- The selection pipeline of `getBestProviderForModel` after resolution:
partition by cost, then select. -/
def selectFromCandidates (candidates : List Candidate) (r : Nat) : Option Candidate :=
  let part := partitionCandidatesByCost candidates
  selectBestCandidate part.1 part.2 r

/-- Outcome of `Router.getBestProviderForModel`: a chosen candidate or an
`{error, status}` object. -/
inductive RouteResult where
  | ok (candidate : Candidate)
  | routeError (message : String) (status : Nat)
deriving DecidableEq, Repr

/-- `Router.getBestProviderForModel` (with the random source injected):
404 when resolution yields no candidates, 503 when the availability filter
(now the identity) leaves none, 500 when selection fails, else the choice. -/
def getBestProviderForModel (providers : List Provider) (modelName : String)
    (r : Nat) : RouteResult :=
  match getProvidersForModel providers modelName with
  | none =>
    .routeError ("No configured provider found for model: " ++ modelName) 404
  | some candidates =>
    if candidates.length = 0 then
      .routeError ("No configured provider found for model: " ++ modelName) 404
    else
      -- `filterAvailableCandidates` returns all candidates (rate limiting removed)
      let availableCandidates := candidates
      if availableCandidates.length = 0 then
        .routeError ("No available providers found for model '" ++ modelName ++ "'.") 503
      else
        match selectFromCandidates availableCandidates r with
        | none => .routeError "Failed to select a suitable provider." 500
        | some c => .ok c

/-! ## The composite key as a lexicographic order -/

/-- An extended cost, with a missing component as `+∞`. -/
def ocost : Option ℚ → WithTop ℚ
  | none => ⊤
  | some q => (q : WithTop ℚ)

/-- The spec's composite sort key, valued in a lexicographic linear order:
missing-component flag (`false < true`), then input cost, then output cost. -/
def toKey (c : Candidate) : Bool ×ₗ (WithTop ℚ ×ₗ WithTop ℚ) :=
  toLex (hasMissingCost c, toLex (ocost (inputCostOf c), ocost (outputCostOf c)))

theorem ocost_inj {x y : Option ℚ} (h : ocost x = ocost y) : x = y := by
  cases x <;> cases y <;> simp_all [ocost]

theorem ecmpCost_ne_gt_iff (x y : Option ℚ) :
    ecmpCost x y ≠ .gt ↔ ocost x ≤ ocost y := by
  cases x with
  | none =>
    cases y with
    | none => simp [ecmpCost, ocost]
    | some q => simp [ecmpCost, ocost, top_le_iff]
  | some a =>
    cases y with
    | none => simp [ecmpCost, ocost, le_top]
    | some b =>
      simp only [ecmpCost, ocost, WithTop.coe_le_coe]
      rcases lt_trichotomy a b with h | h | h
      · simp [h, le_of_lt h]
      · simp [h, lt_irrefl, le_refl]
      · have h1 : ¬ a < b := not_lt_of_gt h
        have h2 : a ≠ b := ne_of_gt h
        simp [h1, h2, not_le_of_gt h]

theorem ecmpCost_eq_lt_iff (x y : Option ℚ) :
    ecmpCost x y = .lt ↔ ocost x < ocost y := by
  cases x with
  | none =>
    cases y with
    | none => simp [ecmpCost, ocost, lt_irrefl]
    | some q => simp [ecmpCost, ocost, not_top_lt]
  | some a =>
    cases y with
    | none => simp [ecmpCost, ocost, WithTop.coe_lt_top]
    | some b =>
      simp only [ecmpCost, ocost, WithTop.coe_lt_coe]
      rcases lt_trichotomy a b with h | h | h
      · simp [h]
      · simp [h, lt_irrefl]
      · have h1 : ¬ a < b := not_lt_of_gt h
        have h2 : a ≠ b := ne_of_gt h
        simp [h1, h2, not_lt_of_gt h]

theorem boolCompare_ne_gt_iff (x y : Bool) : boolCompare x y ≠ .gt ↔ x ≤ y := by
  cases x <;> cases y <;> simp [boolCompare]

theorem boolCompare_eq_lt_iff (x y : Bool) : boolCompare x y = .lt ↔ x < y := by
  cases x <;> cases y <;> simp [boolCompare]

theorem boolCompare_eq_eq_iff (x y : Bool) : boolCompare x y = .eq ↔ x = y := by
  cases x <;> cases y <;> simp [boolCompare]

theorem then_ne_gt (o p : Ordering) :
    o.then p ≠ .gt ↔ o = .lt ∨ (o = .eq ∧ p ≠ .gt) := by
  cases o <;> simp [Ordering.then]

theorem specKeyLe_iff_toKey_le (a b : Candidate) :
    specKeyLe a b ↔ toKey a ≤ toKey b := by
  unfold specKeyLe specKeyCompare toKey
  rw [then_ne_gt, then_ne_gt, Prod.Lex.le_iff]
  simp only [Prod.Lex.le_iff, boolCompare_eq_lt_iff, boolCompare_eq_eq_iff,
    ecmpCost_eq_lt_iff, ecmpCost_ne_gt_iff]
  constructor
  · rintro (h | ⟨h1, h2 | ⟨h2, h3⟩⟩)
    · exact Or.inl h
    · exact Or.inr ⟨h1, Or.inl h2⟩
    · exact Or.inr ⟨h1, Or.inr ⟨congrArg ocost ((ecmpCost_eq_iff _ _).mp h2), h3⟩⟩
  · rintro (h | ⟨h1, h2 | ⟨h2, h3⟩⟩)
    · exact Or.inl h
    · exact Or.inr ⟨h1, Or.inl h2⟩
    · exact Or.inr ⟨h1, Or.inr ⟨(ecmpCost_eq_iff _ _).mpr (ocost_inj h2), h3⟩⟩

instance : IsTotal Candidate specKeyLe :=
  ⟨fun a b => by
    rw [specKeyLe_iff_toKey_le, specKeyLe_iff_toKey_le]
    exact le_total _ _⟩

instance : IsTrans Candidate specKeyLe :=
  ⟨fun a b c hab hbc => by
    rw [specKeyLe_iff_toKey_le] at *
    exact le_trans hab hbc⟩

instance : IsTotal Candidate candidateLe :=
  ⟨fun a b => by
    rw [candidateLe_iff_specKeyLe, candidateLe_iff_specKeyLe]
    exact IsTotal.total a b⟩

instance : IsTrans Candidate candidateLe :=
  ⟨fun a b c hab hbc => by
    rw [candidateLe_iff_specKeyLe] at *
    exact IsTrans.trans a b c hab hbc⟩

theorem specKeyLe_refl (c : Candidate) : specKeyLe c c := by
  rw [specKeyLe_iff_toKey_le]

/-! ## Example candidates (spec §8) -/

/-- Paid model A with input 2, output 5. -/
def modelA : Model := ⟨"model-a", none, none, none, some ⟨some 2, some 5, none⟩⟩

/-- Paid model B with input 1, output 9. -/
def modelB : Model := ⟨"model-b", none, none, none, some ⟨some 1, some 9, none⟩⟩

/-- Paid model C with input 1, output 1. -/
def modelC : Model := ⟨"model-c", none, none, none, some ⟨some 1, some 1, none⟩⟩

/-- Zero-cost model: input cost defined and 0, other fields undefined. -/
def modelFree : Model := ⟨"model-free", none, none, none, some ⟨some 0, none, none⟩⟩

def providerA : Provider := ⟨"provider-a", "openai", "key-a", none, [modelA]⟩

def providerB : Provider := ⟨"provider-b", "openai", "key-b", none, [modelB]⟩

def providerC : Provider := ⟨"provider-c", "openai", "key-c", none, [modelC]⟩

def providerFree : Provider := ⟨"provider-free", "openai", "key-f", none, [modelFree]⟩

def candA : Candidate := (providerA, modelA)

def candB : Candidate := (providerB, modelB)

def candC : Candidate := (providerC, modelC)

def candFree : Candidate := (providerFree, modelFree)

/-- C2: on paid candidates the selection is the head of the stable sort by
the spec's composite key (missing-component flag, then input cost with
missing as `+∞`, then output cost with missing as `+∞`; ties kept in
catalog order by stability); the selected candidate is minimal for the key
among all candidates; and for A(2,5), B(1,9), C(1,1) it returns C. -/
theorem selectBestPaidProvider_sorts_by_composite_key :
    (∀ cs : List Candidate,
      selectBestPaidProvider cs = (cs.insertionSort specKeyLe).head?) ∧
    (∀ (cs : List Candidate) (c : Candidate),
      selectBestPaidProvider cs = some c → ∀ x ∈ cs, specKeyLe c x) ∧
    selectBestPaidProvider [candA, candB, candC] = some candC := by
  have h1 : ∀ cs : List Candidate,
      selectBestPaidProvider cs = (cs.insertionSort specKeyLe).head? := by
    intro cs
    unfold selectBestPaidProvider
    rw [insertionSort_congr candidateLe_iff_specKeyLe]
    cases cs with
    | nil => rfl
    | cons a l => rfl
  refine ⟨h1, ?_, ?_⟩
  · intro cs c hsel x hx
    rw [h1] at hsel
    have hsorted : List.Sorted specKeyLe (cs.insertionSort specKeyLe) :=
      List.sorted_insertionSort specKeyLe cs
    have hmem : x ∈ cs.insertionSort specKeyLe :=
      ((List.perm_insertionSort specKeyLe cs).mem_iff).mpr hx
    cases hs : cs.insertionSort specKeyLe with
    | nil => rw [hs] at hsel; simp at hsel
    | cons c0 rest =>
      rw [hs] at hsel
      simp only [List.head?_cons, Option.some.injEq] at hsel
      subst hsel
      rw [hs] at hsorted hmem
      rcases List.mem_cons.mp hmem with h | h
      · subst h; exact specKeyLe_refl x
      · exact List.rel_of_sorted_cons hsorted x h
  · decide

/-- Witness for C2: the composite-key minimality, instantiated at the
concrete example list, where C is selected and is key-minimal. -/
theorem selectBestPaidProvider_sorts_witness :
    specKeyLe candC candA ∧ specKeyLe candC candB :=
  ⟨selectBestPaidProvider_sorts_by_composite_key.2.1 [candA, candB, candC] candC
      selectBestPaidProvider_sorts_by_composite_key.2.2 candA (by decide),
    selectBestPaidProvider_sorts_by_composite_key.2.1 [candA, candB, candC] candC
      selectBestPaidProvider_sorts_by_composite_key.2.2 candB (by decide)⟩

/-- C3: whenever some candidate is zero-cost, selection returns a
zero-cost candidate (never a paid one), for every value of the injected
random source. -/
theorem select_prefers_zero_cost :
    ∀ (candidates : List Candidate) (r : Nat) (c0 : Candidate),
      c0 ∈ candidates → isZeroCost c0.1 c0.2 = true →
      ∃ c, selectFromCandidates candidates r = some c ∧ isZeroCost c.1 c.2 = true := by
  intro candidates r c0 hmem hzero
  unfold selectFromCandidates partitionCandidatesByCost selectBestCandidate randomSelect
  simp only [List.partition_eq_filter_filter]
  set zero := candidates.filter (fun c => isZeroCost c.1 c.2) with hz
  have hc0 : c0 ∈ zero := List.mem_filter.mpr ⟨hmem, hzero⟩
  have hlen : 0 < zero.length := List.length_pos.mpr (List.ne_nil_of_mem hc0)
  have hne : zero.isEmpty = false := by
    rcases hzz : zero with _ | ⟨a, l⟩
    · rw [hzz] at hlen; simp at hlen
    · rfl
  have hidx : r % zero.length < zero.length := Nat.mod_lt _ hlen
  refine ⟨zero.get ⟨r % zero.length, hidx⟩, ?_, ?_⟩
  · simp [hlen, hne, List.getElem?_eq_getElem hidx]
  · have hmm : zero.get ⟨r % zero.length, hidx⟩ ∈ zero := List.get_mem zero (r % zero.length) hidx
    exact (List.mem_filter.mp hmm).2

/-- Witness for C3: among a zero-cost and a paid candidate, with random
seed 5, the zero-cost one is chosen. -/
theorem select_prefers_zero_cost_witness :
    ∃ c, selectFromCandidates [candFree, candA] 5 = some c ∧ isZeroCost c.1 c.2 = true :=
  select_prefers_zero_cost [candFree, candA] 5 candFree (by decide) (by decide)

/-- A model whose `exposed_slug` is present but empty. -/
def modelEmptySlug : Model := ⟨"m-canonical", some "", none, none, none⟩

def providerEmptySlug : Provider :=
  ⟨"p-empty", "openai", "k", none, [modelEmptySlug]⟩

/-- Counterexample for C4: with no match, `getProvidersForModel` returns
`undefined` (`none`), not an empty sequence; and a model whose
`exposed_slug` is the empty string is matched under its `canonical_slug`
even though its exposed identifier (the empty string) differs from the
request, contradicting the claim's matching rule for present slugs. -/
theorem getProvidersForModel_counterexample :
    getProvidersForModel [] "gpt" = none ∧
    getProvidersForModel [] "gpt" ≠ some [] ∧
    getBestProviderForModel [] "gpt" 0 =
      .routeError "No configured provider found for model: gpt" 404 ∧
    modelEmptySlug.exposed_slug = some "" ∧
    getProvidersForModel [providerEmptySlug] "m-canonical" =
      some [(providerEmptySlug, modelEmptySlug)] := by
  refine ⟨rfl, by decide, rfl, rfl, by decide⟩

/-- C4 (amended): resolution returns exactly the candidates whose resolved
identifier (`exposed_slug` when non-empty, else `canonical_slug`) equals
the request, in catalog provider/model order, and `undefined` — not an
error and not an empty sequence — when nothing matches; the caller turns
the `undefined` into a 404 error result. -/
theorem getProvidersForModel_amended :
    ∀ (providers : List Provider) (name : String) (r : Nat),
      getProvidersForModel providers name =
        (if (specResolve providers name).isEmpty then none
         else some (specResolve providers name)) ∧
      (getProvidersForModel providers name = none →
        getBestProviderForModel providers name r =
          .routeError ("No configured provider found for model: " ++ name) 404) := by
  intro providers name r
  refine ⟨getProvidersForModel_eq_specResolve providers name, ?_⟩
  intro hnone
  unfold getBestProviderForModel
  rw [hnone]

/-- Witness for C4: the amended statement at the empty catalog, where the
resolver returns `undefined` and the caller produces the 404 error. -/
theorem getProvidersForModel_amended_witness :
    getBestProviderForModel [] "gpt" 0 =
      .routeError ("No configured provider found for model: " ++ "gpt") 404 :=
  (getProvidersForModel_amended [] "gpt" 0).2 (by decide)

/-! ## `GET /v1/models` (v1 route) -/

/-- Insertion into a JS `Set` of strings, which keeps one copy per value in
first-insertion order. -/
def addDistinct (acc : List String) (s : String) : List String :=
  if s ∈ acc then acc else acc ++ [s]

/-- The identifiers collected by the `/v1/models` handler: for every
provider and model, `allModels.add(model.exposed_slug ?? model.canonical_slug)`. -/
def modelIds (providers : List Provider) : List String :=
  providers.foldl (fun acc provider =>
    provider.models.foldl (fun acc m => addDistinct acc (listedId m)) acc) []

/-- One entry of the `/v1/models` response body. -/
structure ModelEntry where
  id : String
  object : String
  created : Nat
  owned_by : String
deriving DecidableEq, Repr

/-- The `/v1/models` response data: one entry per distinct identifier, with
the fixed timestamp and owner of the source. -/
def modelsEndpoint (providers : List Provider) : List ModelEntry :=
  (modelIds providers).map fun modelId => ⟨modelId, "model", 1686935002, "ai"⟩

theorem mem_addDistinct (acc : List String) (s x : String) :
    x ∈ addDistinct acc s ↔ x ∈ acc ∨ x = s := by
  unfold addDistinct
  by_cases h : s ∈ acc
  · simp only [if_pos h]
    constructor
    · exact Or.inl
    · rintro (hx | rfl)
      · exact hx
      · exact h
  · simp [if_neg h]

theorem nodup_addDistinct (acc : List String) (s : String) (h : acc.Nodup) :
    (addDistinct acc s).Nodup := by
  unfold addDistinct
  by_cases hs : s ∈ acc
  · simpa [if_pos hs]
  · rw [if_neg hs, List.nodup_append]
    exact ⟨h, List.nodup_singleton s, by simpa using hs⟩

theorem mem_foldl_addDistinct (l : List String) :
    ∀ (acc : List String) (x : String),
      x ∈ l.foldl addDistinct acc ↔ x ∈ acc ∨ x ∈ l := by
  induction l with
  | nil => simp
  | cons a l ih =>
    intro acc x
    rw [List.foldl_cons, ih, mem_addDistinct]
    simp [or_assoc]

theorem nodup_foldl_addDistinct (l : List String) :
    ∀ acc : List String, acc.Nodup → (l.foldl addDistinct acc).Nodup := by
  induction l with
  | nil => exact fun acc h => h
  | cons a l ih => exact fun acc h => ih _ (nodup_addDistinct acc a h)

/-- The flattening of all listed identifiers in catalog order. -/
def allListedIds (providers : List Provider) : List String :=
  providers.flatMap fun provider => provider.models.map listedId

theorem modelIds_eq_foldl_flat (providers : List Provider) :
    modelIds providers = (allListedIds providers).foldl addDistinct [] := by
  unfold modelIds allListedIds
  suffices h : ∀ acc, providers.foldl (fun acc provider =>
      provider.models.foldl (fun acc m => addDistinct acc (listedId m)) acc) acc =
      (providers.flatMap fun provider => provider.models.map listedId).foldl addDistinct acc from
    h []
  induction providers with
  | nil => intro acc; rfl
  | cons p ps ih =>
    intro acc
    rw [List.foldl_cons, List.flatMap_cons, List.foldl_append, ih, List.foldl_map]

theorem mem_modelIds (providers : List Provider) (s : String) :
    s ∈ modelIds providers ↔ ∃ p ∈ providers, ∃ m ∈ p.models, listedId m = s := by
  rw [modelIds_eq_foldl_flat, mem_foldl_addDistinct]
  unfold allListedIds
  simp [List.mem_flatMap, eq_comm]

/-- C9: `/v1/models` lists every distinct listed identifier exactly once —
the identifier list has no duplicates, contains an identifier iff some
provider's model exposes it, and the response entries are in bijection
with it. -/
theorem models_route_lists_each_identifier_once :
    ∀ providers : List Provider,
      (modelIds providers).Nodup ∧
      (∀ s, s ∈ modelIds providers ↔ ∃ p ∈ providers, ∃ m ∈ p.models, listedId m = s) ∧
      (modelsEndpoint providers).map ModelEntry.id = modelIds providers := by
  intro providers
  refine ⟨?_, fun s => mem_modelIds providers s, ?_⟩
  · rw [modelIds_eq_foldl_flat]
    exact nodup_foldl_addDistinct _ [] List.nodup_nil
  · unfold modelsEndpoint
    rw [List.map_map]
    exact List.map_id _

/-- A model whose `exposed_slug` and `canonical_slug` are both empty. -/
def modelBothEmpty : Model := ⟨"", some "", none, none, none⟩

/-- Counterexample for C10: when `canonical_slug` is also the empty
string, the listed identifier and the resolvable identifier coincide
(both are the empty string), so they do not differ as claimed. -/
theorem empty_slug_counterexample :
    modelBothEmpty.exposed_slug = some "" ∧
    listedId modelBothEmpty = resolvedId modelBothEmpty := by
  refine ⟨rfl, rfl⟩

/-- C10 (amended): a model with an empty `exposed_slug` resolves under its
`canonical_slug` (the `||` fallback treats the empty string as absent)
while `/v1/models` lists the empty string itself (the `??` fallback treats
it as present); whenever `canonical_slug` is non-empty the listed and
resolvable identifiers therefore differ. -/
theorem empty_exposed_slug_discrepancy :
    ∀ (m : Model) (p : Provider) (providers : List Provider),
      m.exposed_slug = some "" →
      p ∈ providers → m ∈ p.models →
      resolvedId m = m.canonical_slug ∧
      listedId m = "" ∧
      (∃ l, getProvidersForModel providers m.canonical_slug = some l ∧ (p, m) ∈ l) ∧
      "" ∈ modelIds providers ∧
      (m.canonical_slug ≠ "" → listedId m ≠ resolvedId m) := by
  intro m p providers hexp hp hm
  have hres : resolvedId m = m.canonical_slug := by
    unfold resolvedId
    rw [hexp]
    simp
  have hlist : listedId m = "" := by
    unfold listedId
    rw [hexp]
    rfl
  refine ⟨hres, hlist, ?_, ?_, ?_⟩
  · have hmem : (p, m) ∈ specResolve providers m.canonical_slug := by
      unfold specResolve
      rw [List.mem_filter]
      refine ⟨List.mem_flatMap.mpr ⟨p, hp, List.mem_map.mpr ⟨m, hm, rfl⟩⟩, ?_⟩
      simpa using hres
    refine ⟨specResolve providers m.canonical_slug, ?_, hmem⟩
    rw [getProvidersForModel_eq_specResolve]
    rw [if_neg ?_]
    intro hemp
    rw [List.isEmpty_iff] at hemp
    rw [hemp] at hmem
    exact (List.not_mem_nil _) hmem
  · exact (mem_modelIds providers "").mpr ⟨p, hp, m, hm, hlist⟩
  · intro hne
    rw [hlist, hres]
    exact fun h => hne h.symm

/-- Witness for C10: the amended statement at a concrete catalog whose one
model has an empty `exposed_slug` and canonical slug "m-canonical". -/
theorem empty_exposed_slug_discrepancy_witness :
    listedId modelEmptySlug ≠ resolvedId modelEmptySlug ∧
    "" ∈ modelIds [providerEmptySlug] := by
  have h := empty_exposed_slug_discrepancy modelEmptySlug providerEmptySlug
    [providerEmptySlug] rfl (by decide) (by decide)
  exact ⟨h.2.2.2.2 (by decide), h.2.2.2.1⟩

/-! ## Streaming translation (`UnifiedExecutor.handleStreamingResponse`) -/

/-- The backend text stream as observed by the translator's iteration:
the text fragments it yields, then either normal completion with a finish
reason, or a thrown error (`ok = false`). -/
structure BackendStream where
  deltas : List String
  finishReason : String
  ok : Bool
deriving DecidableEq, Repr

/-- One server-sent frame written by the translator: the initial role
chunk, a content chunk per fragment, the final finish-reason chunk, the
in-stream error notice, or the sentinel. -/
inductive Frame where
  | role
  | content (textDelta : String)
  | finish (reason : String)
  | errorNotice
  | done
deriving DecidableEq, Repr

/-- `handleStreamingResponse`: writes the SSE headers and the role chunk
before touching the backend stream, then one content chunk per fragment;
on completion the finish chunk then the sentinel, and when iteration
throws, the catch block writes the error notice then the sentinel. -/
def handleStreamingResponse (b : BackendStream) : List Frame :=
  Frame.role ::
    (b.deltas.map Frame.content ++
      (if b.ok then [Frame.finish b.finishReason, Frame.done]
       else [Frame.errorNotice, Frame.done]))

/-- One SSE write: `data: ` then the payload then a blank line. -/
def sseLine (payload : String) : String := "data: " ++ payload ++ "\n\n"

/-- The payload serialized into each write.  The JSON of chat-completion
chunks is abstracted to the fields the claims mention; the error notice
and the sentinel are the literal payloads of the source. -/
def framePayload : Frame → String
  | .role => "\x7b\"object\": \"chat.completion.chunk\", \"delta\": \x7b\"role\": \"assistant\"\x7d\x7d"
  | .content textDelta =>
    "\x7b\"object\": \"chat.completion.chunk\", \"delta\": \x7b\"content\": \"" ++ textDelta ++ "\"\x7d\x7d"
  | .finish reason =>
    "\x7b\"object\": \"chat.completion.chunk\", \"delta\": \x7b\x7d, \"finish_reason\": \"" ++ reason ++ "\"\x7d"
  | .errorNotice => "\x7b\"error\": \"Streaming failed\"\x7d"
  | .done => "[DONE]"

/-- The byte-level writes of a streaming response. -/
def streamBytes (b : BackendStream) : List String :=
  (handleStreamingResponse b).map fun f => sseLine (framePayload f)

/-- The wire-level shape of a response: a plain JSON body with a status,
or an opened event stream of frames. -/
inductive WireResponse where
  | json (status : Nat) (body : String)
  | sse (frames : List Frame)
deriving DecidableEq, Repr

/-- The `execute` path for a streaming request: initiating the backend
call can throw synchronously, in which case the outer catch sends a JSON
500 error; otherwise the translator runs and always opens the stream. -/
def executeStreaming (call : Except String BackendStream) : WireResponse :=
  match call with
  | .error _ => .json 500 "AI request failed"
  | .ok b => .sse (handleStreamingResponse b)

/-- Counterexample for C6: a backend stream that fails before yielding any
fragment is still reported on an opened event stream (role chunk, error
notice, sentinel), never as a non-streaming JSON error response. -/
theorem streaming_early_failure_counterexample :
    executeStreaming (.ok ⟨[], "", false⟩) =
      .sse [Frame.role, Frame.errorNotice, Frame.done] ∧
    ¬ ∃ status body, executeStreaming (.ok ⟨[], "", false⟩) = .json status body := by
  refine ⟨rfl, ?_⟩
  rintro ⟨status, body, h⟩
  simp [executeStreaming, handleStreamingResponse] at h

/-- C6 (amended): the translator writes the SSE headers and role frame
before pulling from the backend, so a backend failure before any content
fragment still produces an in-stream error notice and the sentinel on the
opened stream — never a JSON error; only a synchronous throw when
initiating the call (before the translator runs) yields the JSON 500. -/
theorem streaming_backend_failure_stays_in_stream :
    ∀ b : BackendStream, b.ok = false →
      executeStreaming (.ok b) =
        .sse (Frame.role :: (b.deltas.map Frame.content ++ [Frame.errorNotice, Frame.done])) ∧
      ∀ e : String, executeStreaming (.error e) = .json 500 "AI request failed" := by
  intro b hb
  constructor
  · show WireResponse.sse (handleStreamingResponse b) = _
    unfold handleStreamingResponse
    rw [hb]
    simp
  · intro e
    rfl

/-- Witness for C6: the amended statement at an immediately-failing
backend stream. -/
theorem streaming_backend_failure_witness :
    executeStreaming (.ok ⟨[], "", false⟩) =
      .sse (Frame.role :: (([] : List String).map Frame.content ++ [Frame.errorNotice, Frame.done])) :=
  (streaming_backend_failure_stays_in_stream ⟨[], "", false⟩ rfl).1

/-- C7: every streaming response ends its bytes with the literal line
`data: [DONE]`; on success the frames are the role frame, the content
frames in backend order, the finish-reason frame and the sentinel, and on
failure after streaming began the error notice precedes the sentinel. -/
theorem stream_always_ends_with_done :
    ∀ b : BackendStream,
      (streamBytes b).getLast? = some "data: [DONE]\n\n" ∧
      handleStreamingResponse b =
        Frame.role :: (b.deltas.map Frame.content ++
          (if b.ok then [Frame.finish b.finishReason, Frame.done]
           else [Frame.errorNotice, Frame.done])) := by
  intro b
  refine ⟨?_, rfl⟩
  have h : handleStreamingResponse b =
      (Frame.role :: (b.deltas.map Frame.content ++
        (if b.ok then [Frame.finish b.finishReason] else [Frame.errorNotice]))) ++
        [Frame.done] := by
    unfold handleStreamingResponse
    cases b.ok <;> simp
  unfold streamBytes
  rw [h, List.map_append, List.getLast?_append]
  rfl

/-! ## Multi-choice responses (`UnifiedExecutor.handleMultipleChoicesResponse`) -/

/-- Usage as reported by the backend, in either the v1 (`promptTokens`,
`completionTokens`) or v2 (`inputTokens`, `outputTokens`) format. -/
structure UsageRaw where
  promptTokens : Option Nat
  inputTokens : Option Nat
  completionTokens : Option Nat
  outputTokens : Option Nat
deriving DecidableEq, Repr

/-- `usage.promptTokens ?? usage.inputTokens ?? 0`. -/
def promptTokensOf (u : UsageRaw) : Nat :=
  u.promptTokens.getD (u.inputTokens.getD 0)

/-- `usage.completionTokens ?? usage.outputTokens ?? 0`. -/
def completionTokensOf (u : UsageRaw) : Nat :=
  u.completionTokens.getD (u.outputTokens.getD 0)

/-- One `generateText` result: its text, finish reason and usage. -/
structure GenResult where
  text : String
  finishReason : String
  usage : UsageRaw
deriving DecidableEq, Repr

/-- One choice of the completion response body. -/
structure ChoiceOut where
  index : Nat
  content : String
  finish_reason : String
deriving DecidableEq, Repr

/-- The usage object of the completion response body. -/
structure UsageOut where
  prompt_tokens : Nat
  completion_tokens : Nat
  total_tokens : Nat
deriving DecidableEq, Repr

/-- The completion response body (the fields the claims concern). -/
structure CompletionOut where
  model : String
  choices : List ChoiceOut
  usage : UsageOut
deriving DecidableEq, Repr

/-- `handleMultipleChoicesResponse`: one choice per result with its list
position as `index`, and token totals summed across all results. -/
def handleMultipleChoicesResponse (model : Model) (results : List GenResult) :
    CompletionOut :=
  let totalPromptTokens := (results.map fun r => promptTokensOf r.usage).sum
  let totalCompletionTokens := (results.map fun r => completionTokensOf r.usage).sum
  { model := resolvedId model
  , choices := results.enum.map fun p => ⟨p.1, p.2.text, p.2.finishReason⟩
  , usage := ⟨totalPromptTokens, totalCompletionTokens,
      totalPromptTokens + totalCompletionTokens⟩ }

/-- The `execute` path for a non-streaming request with `n > 1`: issue the
`n` generations (`Promise.all` over `n` independent `generateText` calls,
the `i`-th producing `gen i`) and combine them. -/
def executeMultipleChoices (model : Model) (n : Nat) (gen : Nat → GenResult) :
    CompletionOut :=
  handleMultipleChoicesResponse model ((List.range n).map gen)

theorem sum_map_add {α : Type} (l : List α) (f g : α → Nat) :
    (l.map fun x => f x + g x).sum = (l.map f).sum + (l.map g).sum := by
  induction l with
  | nil => rfl
  | cons a l ih => simp [ih]; omega

/-- C8: a non-streaming request with `n > 1` yields one completion object
with exactly `n` choices, the `i`-th carrying index `i` and the `i`-th
generation's text and finish reason, and `usage.total_tokens` equal to the
sum over all generations of prompt plus completion tokens. -/
theorem multi_choice_response_shape :
    ∀ (model : Model) (n : Nat) (gen : Nat → GenResult), 1 < n →
      (executeMultipleChoices model n gen).choices.length = n ∧
      (∀ i, i < n → (executeMultipleChoices model n gen).choices[i]? =
        some ⟨i, (gen i).text, (gen i).finishReason⟩) ∧
      (executeMultipleChoices model n gen).usage.total_tokens =
        ((List.range n).map fun i =>
          promptTokensOf (gen i).usage + completionTokensOf (gen i).usage).sum := by
  intro model n gen _
  unfold executeMultipleChoices handleMultipleChoicesResponse
  refine ⟨by simp, ?_, ?_⟩
  · intro i hi
    simp only [List.getElem?_map, List.getElem?_enum, List.getElem?_range hi]
    rfl
  · simp only [List.map_map]
    rw [sum_map_add]
    rfl

/-- Example generation oracle for the C8 witness. -/
def genEx : Nat → GenResult :=
  fun i => ⟨"text", "stop", ⟨some (i + 1), none, some (2 * i), none⟩⟩

/-- Witness for C8: the response shape at `n = 3` with a concrete
generation oracle. -/
theorem multi_choice_response_shape_witness :
    (executeMultipleChoices modelA 3 genEx).choices.length = 3 ∧
    (executeMultipleChoices modelA 3 genEx).choices[2]? =
      some ⟨2, (genEx 2).text, (genEx 2).finishReason⟩ :=
  ⟨(multi_choice_response_shape modelA 3 genEx (by decide)).1,
    (multi_choice_response_shape modelA 3 genEx (by decide)).2.1 2 (by decide)⟩

/-! ## Backend client cache (`UnifiedExecutor.getOrCreateProvider`) -/

/-- Program counter of one task running `getOrCreateProvider` for a fixed
key: about to check `providerInstances.has`, about to construct (the
awaited factory call of the miss branch), about to `set` the built
instance, about to read the map for the final `return`, or finished. -/
inductive CachePC where
  | checking
  | constructing
  | setting
  | returning
  | finished
deriving DecidableEq, Repr

/-- One task's state: its program counter, the instance it built (handles
are numbered by construction order) and its returned value. -/
structure CacheTask where
  pc : CachePC
  inst : Nat
  result : Option Nat
deriving DecidableEq, Repr

/-- Shared state of the cache simulation for one key: the map entry for
the key, the next fresh handle, the number of factory invocations so far,
and two concurrently executing tasks. -/
structure CacheSim where
  cache : Option Nat
  nextHandle : Nat
  constructions : Nat
  t0 : CacheTask
  t1 : CacheTask
deriving DecidableEq, Repr

/-- One atomic step of the scheduled task (`who = false` is task 0):
the `has` check branches to the construction or directly to the final
read; construction draws a fresh handle and counts a factory invocation;
`set` stores the built handle; the final read returns
`providerInstances.get(cacheKey)` as of now.  The steps are separated in
the source by `await` suspension points, so two tasks may interleave
anywhere between them. -/
def stepFor (s : CacheSim) (who : Bool) : CacheSim :=
  let t := if who then s.t1 else s.t0
  let next :=
    match t.pc with
    | .checking =>
      if s.cache.isSome then
        (s.cache, s.nextHandle, s.constructions, { t with pc := .returning })
      else
        (s.cache, s.nextHandle, s.constructions, { t with pc := .constructing })
    | .constructing =>
      (s.cache, s.nextHandle + 1, s.constructions + 1,
        { t with pc := .setting, inst := s.nextHandle })
    | .setting =>
      (some t.inst, s.nextHandle, s.constructions, { t with pc := .returning })
    | .returning =>
      (s.cache, s.nextHandle, s.constructions,
        { t with pc := .finished, result := s.cache })
    | .finished =>
      (s.cache, s.nextHandle, s.constructions, t)
  if who then
    { cache := next.1, nextHandle := next.2.1, constructions := next.2.2.1,
      t0 := s.t0, t1 := next.2.2.2 }
  else
    { cache := next.1, nextHandle := next.2.1, constructions := next.2.2.1,
      t0 := next.2.2.2, t1 := s.t1 }

/-- Run a schedule (the list of which task steps next) from a state. -/
def runSchedule (sched : List Bool) (s : CacheSim) : CacheSim :=
  sched.foldl stepFor s

/-- Both tasks at their first `has` check, cache empty, nothing built. -/
def initialCacheSim : CacheSim :=
  ⟨none, 0, 0, ⟨.checking, 0, none⟩, ⟨.checking, 0, none⟩⟩

/-- Counterexample for C5: an interleaving in which both tasks pass the
`has` check before either stores its instance.  The factory runs twice and
the two callers observe different handles. -/
theorem cache_race_counterexample :
    (runSchedule [false, true, false, false, false, true, true, true]
      initialCacheSim).constructions = 2 ∧
    (runSchedule [false, true, false, false, false, true, true, true]
      initialCacheSim).t0.result = some 0 ∧
    (runSchedule [false, true, false, false, false, true, true, true]
      initialCacheSim).t1.result = some 1 := by
  refine ⟨rfl, rfl, rfl⟩

/-- The state after task 0 completed a first use alone: the handle 0 is
cached, the factory ran once, task 1 has not stepped yet. -/
def afterFirstTask : CacheSim :=
  runSchedule [false, false, false, false] initialCacheSim

/-- Invariant preserved once task 0 has completed its first use alone:
the key maps to handle 0, exactly one construction happened, and task 1
can only be at its check, at its final read, or finished having observed
handle 0. -/
def CacheInv (s : CacheSim) : Prop :=
  s.cache = some 0 ∧ s.constructions = 1 ∧ s.nextHandle = 1 ∧
  s.t0 = ⟨.finished, 0, some 0⟩ ∧
  (s.t1.pc = .checking ∨ s.t1.pc = .returning ∨
    (s.t1.pc = .finished ∧ s.t1.result = some 0))

theorem cacheInv_afterFirstTask : CacheInv afterFirstTask := by
  refine ⟨rfl, rfl, rfl, rfl, Or.inl rfl⟩

theorem cacheInv_step (s : CacheSim) (who : Bool) (h : CacheInv s) :
    CacheInv (stepFor s who) := by
  obtain ⟨cache, nh, cons, t0, t1⟩ := s
  obtain ⟨pc1, inst1, res1⟩ := t1
  obtain ⟨h1, h2, h3, h4, h5⟩ := h
  dsimp only at h1 h2 h3 h4 h5
  subst h1
  subst h2
  subst h3
  subst h4
  cases who with
  | false => simpa [stepFor, CacheInv] using h5
  | true =>
    rcases h5 with hpc | hpc | ⟨hpc, hres⟩
    · subst hpc
      simp [stepFor, CacheInv]
    · subst hpc
      simp [stepFor, CacheInv]
    · subst hpc
      subst hres
      simp [stepFor, CacheInv]

theorem cacheInv_runSchedule (sched : List Bool) :
    ∀ s : CacheSim, CacheInv s → CacheInv (runSchedule sched s) := by
  induction sched with
  | nil => exact fun s h => h
  | cons b rest ih =>
    intro s h
    exact ih (stepFor s b) (cacheInv_step s b h)

/-- C5 (amended): the map holds at most one handle per key; when the two
first uses do not overlap — the second caller starts after the first
completed — the factory runs exactly once and both callers observe the
same handle; overlapping first uses, however, can each invoke the factory
and observe different handles (see the counterexample). -/
theorem cache_sequential_single_construction :
    ∀ sched : List Bool,
      (runSchedule sched afterFirstTask).constructions = 1 ∧
      (runSchedule sched afterFirstTask).cache = some 0 ∧
      (runSchedule sched afterFirstTask).t0.result = some 0 ∧
      ((runSchedule sched afterFirstTask).t1.pc = .finished →
        (runSchedule sched afterFirstTask).t1.result = some 0) := by
  intro sched
  obtain ⟨h1, h2, h3, h4, h5⟩ :=
    cacheInv_runSchedule sched afterFirstTask cacheInv_afterFirstTask
  refine ⟨h2, h1, by rw [h4], ?_⟩
  intro hfin
  rcases h5 with hpc | hpc | ⟨_, hres⟩
  · rw [hpc] at hfin; cases hfin
  · rw [hpc] at hfin; cases hfin
  · exact hres

/-- Witness for C5: after the sequential schedule in which task 1 runs its
check and final read after task 0 completed, both observe handle 0 with a
single construction. -/
theorem cache_sequential_witness :
    (runSchedule [true, true] afterFirstTask).constructions = 1 ∧
    (runSchedule [true, true] afterFirstTask).t1.result = some 0 :=
  ⟨(cache_sequential_single_construction [true, true]).1,
    (cache_sequential_single_construction [true, true]).2.2.2 (by decide)⟩
